import Mathlib

/-!
# Verification of the HeifContext wrapper (src/context.rs)

A shallow embedding of `src/context.rs` from the libheif-rs repository.
The wrapper owns one native `heif_context` handle, optionally owns a boxed
reader, and bridges construction / serialization / encoding calls into the
native engine.

Modelling conventions:
* Native pointers and heap addresses are `Nat` (with `Option Nat` where a call
  can return null).
* The native engine's behaviour at each call site (allocation results, native
  error values, how the engine chunks the serialized stream when driving the
  writer callback) is passed in as explicit parameters, so the wrapper's code
  is embedded as a total function of its inputs and the engine's behaviour.
* Resource ownership is tracked by an explicit event trace: allocations,
  frees, and reader registrations are emitted in the order the Rust code
  performs them (including the drops Rust inserts on early `?`-returns and
  on unwinding after a panic).
* Code of the repository that is not under `src/` (`error.rs`, `encoder.rs`,
  the native engine interface) is modelled from the spec; every such
  definition is marked `Modelled from the spec:` in its doc comment.
-/

/-- The native `heif_error` record: a numeric code, a numeric sub-code and a
nullable C-string message (`none` models a null pointer). Code `0` is the
native success marker (the value `vector_writer` itself returns on success). -/
structure heif_error where
  code : Nat
  subcode : Nat
  message : Option String
deriving Repr, DecidableEq

/-- Modelled from the spec: the error-code taxonomy lives in `error.rs`, which
is not under `src/`; `context.rs` uses the variant `ContextCreateFailed`
directly and otherwise carries codes translated from the native record. -/
inductive HeifErrorCode where
  | ContextCreateFailed
  | fromNative (code : Nat)
deriving Repr, DecidableEq

/-- Modelled from the spec: sub-code taxonomy from `error.rs` (not under
`src/`); `context.rs` uses `Unspecified` directly, other sub-codes are
translated from the native record. -/
inductive HeifErrorSubCode where
  | Unspecified
  | fromNative (subcode : Nat)
deriving Repr, DecidableEq

/-- The structured error value: a primary code, a sub-code and a message
(`context.rs` constructs one with an empty-string message). -/
structure HeifError where
  code : HeifErrorCode
  sub_code : HeifErrorSubCode
  message : String
deriving Repr, DecidableEq

/-- Modelled from the spec: the Error Translator `HeifError::from_heif_error`
(`error.rs`, not under `src/`) "converts a native result structure (status
code, sub-code, human-readable message) into a structured result value or a
success marker"; absence of error is a distinct success marker. -/
def HeifError.from_heif_error (err : heif_error) : Except HeifError Unit :=
  if err.code = 0 then Except.ok ()
  else
    Except.error
      { code := HeifErrorCode.fromNative err.code
        sub_code := HeifErrorSubCode.fromNative err.subcode
        message := err.message.getD "" }

/-! ## The writer callback (`HeifContext::vector_writer`)

```rust
let vec: &mut Vec<u8> = &mut *(user_data as *mut Vec<u8>);
vec.reserve(size);
vec.set_len(size);
ptr::copy_nonoverlapping::<u8>(data as _, vec.as_mut_ptr(), size);
```

`reserve(size)` only grows capacity (no observable content change) and
guarantees capacity ≥ current length + `size`, so the bytes `set_len` exposes
exist; their values are uninitialized, modelled by the `junk` parameter. -/

/-- `Vec::set_len(n)` after a sufficient `reserve`: the vector's length becomes
`n`; bytes beyond the old contents are uninitialized memory, modelled by
`junk`. -/
def set_len (vec junk : List UInt8) (n : Nat) : List UInt8 :=
  (vec ++ junk).take n

/-- `ptr::copy_nonoverlapping(src, dst, n)`: the first `n` bytes of `dst` are
replaced by the first `n` bytes of `src`. -/
def copy_nonoverlapping (src dst : List UInt8) (n : Nat) : List UInt8 :=
  src.take n ++ dst.drop n

/-- `HeifContext::vector_writer`: one invocation of the writer callback on the
buffer `vec` with a chunk `data` of `size = data.length` bytes; `junk` models
the uninitialized bytes `set_len` may expose (the result is proved independent
of it). Returns the updated buffer and the native success error
`{code: 0, subcode: Unspecified, message: null}`. -/
def vector_writer (vec data junk : List UInt8) : List UInt8 × heif_error :=
  let grown := set_len vec junk data.length
  let filled := copy_nonoverlapping data grown data.length
  (filled, { code := 0, subcode := 0, message := none })

/-- The native engine driving the installed writer callback over a sequence of
chunks, starting from the empty `Vec<u8>` that `write_to_bytes` creates.
Uninitialized memory is supplied as zero bytes here; `vector_writer_copies_chunk`
shows the contents never depend on it. -/
def run_writer (chunks : List (List UInt8)) : List UInt8 :=
  chunks.foldl (fun vec data => (vector_writer vec data (List.replicate data.length 0)).1) []

/-! ## The native engine at the interface boundary -/

/-- Modelled from the spec: the native container codec (out of `src/`,
specified only at its boundary): serializing a context with `n` top-level
images yields the engine's own opaque container byte stream. A magic byte
followed by one marker byte per image keeps the model executable. -/
def heif_serialize (n : Nat) : List UInt8 :=
  0x66 :: List.replicate n 0x01

/-- Modelled from the spec: the native parse step behind
`heif_context_read_from_memory_without_copy` (out of `src/`): a well-formed
serialized stream is parsed back to its image count, while malformed input —
in particular an empty buffer — fails with a native parse/read error record. -/
def heif_parse (bytes : List UInt8) : Except heif_error Nat :=
  match bytes with
  | [] => Except.error { code := 2, subcode := 100, message := some "Invalid input: empty buffer" }
  | b :: rest =>
    if b = 0x66 ∧ rest.all (fun x => x = 0x01) then Except.ok rest.length
    else Except.error { code := 2, subcode := 101, message := some "Invalid input" }

/-! ## The context, its event trace, and the four constructors -/

/-- One resource event at the native boundary, in the order the Rust code
performs them. -/
inductive Event where
  | ctxAlloc (h : Nat)
  | ctxFree (h : Nat)
  | boxAlloc (a : Nat)
  | boxFree (a : Nat)
  | registerReader (h : Nat) (userData : Nat)
deriving Repr, DecidableEq

/-- The `HeifContext` struct: the native handle (`inner`, non-null by
construction), the optional owned boxed reader (`reader`, the heap address of
the `Box<dyn Reader>` slot) and the engine-side state associated with the
handle (its top-level image count), carried here so queries are expressible. -/
structure HeifContext where
  inner : Nat
  reader : Option Nat
  nativeImages : Nat
deriving Repr, DecidableEq

/-- `impl Drop for HeifContext`: `heif_context_free(self.inner)` runs first,
then Rust drops the fields, freeing the boxed reader when one is owned. -/
def HeifContext.drop (ctx : HeifContext) : List Event :=
  Event.ctxFree ctx.inner :: (match ctx.reader with
    | some a => [Event.boxFree a]
    | none => [])

/-- `HeifContext::new`: `heif_context_alloc()` either returns null
(`allocResult = none`) — then an error with `ContextCreateFailed`,
`Unspecified`, empty message — or a handle `h`, giving a context with that
handle and empty reader storage. -/
def HeifContext.new (allocResult : Option Nat) :
    Except HeifError HeifContext × List Event :=
  match allocResult with
  | none =>
    (Except.error
      { code := HeifErrorCode.ContextCreateFailed
        sub_code := HeifErrorSubCode.Unspecified
        message := "" }, [])
  | some h =>
    (Except.ok { inner := h, reader := none, nativeImages := 0 }, [Event.ctxAlloc h])

/-- `HeifContext::read_from_bytes`: build an empty context, hand the byte span
to the native parse without copying, translate the result; on a native error
the `?` returns early and the local context is dropped. -/
def HeifContext.read_from_bytes (allocResult : Option Nat) (bytes : List UInt8) :
    Except HeifError HeifContext × List Event :=
  match HeifContext.new allocResult with
  | (Except.error e, tr) => (Except.error e, tr)
  | (Except.ok context, tr) =>
    match heif_parse bytes with
    | Except.error err =>
      match HeifError.from_heif_error err with
      | Except.error e => (Except.error e, tr ++ context.drop)
      | Except.ok () => (Except.ok context, tr)
    | Except.ok n => (Except.ok { context with nativeImages := n }, tr)

/-- `CString::new`: fails (returns `none`, a `NulError`) exactly when the
string contains an interior NUL byte; otherwise appends the terminating NUL. -/
def CString.new (name : List UInt8) : Option (List UInt8) :=
  if name.contains 0 then none else some (name ++ [0])

/-- Outcome of an operation that may panic: `ok`, a structured error, or a
panic (the `unwrap()` on `CString::new`). -/
inductive Outcome (α : Type) where
  | ok (a : α)
  | err (e : HeifError)
  | panic
deriving Repr, DecidableEq

/-- `HeifContext::read_from_file`: build an empty context, convert the path to
a C string — `unwrap()` panics on an interior NUL, unwinding drops the
already-built context — then hand the file to the native engine (`fileErr` is
the native result) and translate. -/
def HeifContext.read_from_file (allocResult : Option Nat) (name : List UInt8)
    (fileErr : heif_error) : Outcome HeifContext × List Event :=
  match HeifContext.new allocResult with
  | (Except.error e, tr) => (Outcome.err e, tr)
  | (Except.ok context, tr) =>
    match CString.new name with
    | none => (Outcome.panic, tr ++ context.drop)
    | some _ =>
      match HeifError.from_heif_error fileErr with
      | Except.error e => (Outcome.err e, tr ++ context.drop)
      | Except.ok () => (Outcome.ok context, tr)

/-- `HeifContext::read_from_reader`: build an empty context, box the reader
(the inner `Box<dyn Reader>` lives at heap address `boxAddr`, which is the
`user_data` pointer `&mut *reader_box`), register it with the native engine
(`regErr` is the native result). On a registration error the `?` returns
early: `reader_box` is dropped first (freeing `boxAddr`), then the context.
On success the box moves into `context.reader` — the heap slot keeps its
address. -/
def HeifContext.read_from_reader (allocResult : Option Nat) (boxAddr : Nat)
    (regErr : heif_error) : Except HeifError HeifContext × List Event :=
  match HeifContext.new allocResult with
  | (Except.error e, tr) => (Except.error e, tr)
  | (Except.ok context, tr) =>
    let tr := tr ++ [Event.boxAlloc boxAddr, Event.registerReader context.inner boxAddr]
    match HeifError.from_heif_error regErr with
    | Except.error e =>
      (Except.error e, tr ++ [Event.boxFree boxAddr] ++ context.drop)
    | Except.ok () =>
      (Except.ok { context with reader := some boxAddr }, tr)

/-- `HeifContext::write_to_bytes`: create an empty `Vec<u8>`, install the
writer adapter pointing at it, let the native engine drive `vector_writer`
over its chosen chunking of the serialized stream (`chunks`), translate the
engine's overall result (`engineErr`), and return the captured buffer. -/
def HeifContext.write_to_bytes (_ctx : HeifContext) (chunks : List (List UInt8))
    (engineErr : heif_error) : Except HeifError (List UInt8) :=
  let res := run_writer chunks
  match HeifError.from_heif_error engineErr with
  | Except.error e => Except.error e
  | Except.ok () => Except.ok res

/-- A chunking the native engine may legitimately use when writing `ctx`: one
or more writer invocations whose chunks concatenate to the serialized
container stream. -/
def ValidDelivery (ctx : HeifContext) (chunks : List (List UInt8)) : Prop :=
  chunks ≠ [] ∧ chunks.flatten = heif_serialize ctx.nativeImages

/-- `HeifContext::write_to_file`: convert the path (`unwrap()` panics on an
interior NUL), then the native engine serializes directly to the file and the
result is translated. -/
def HeifContext.write_to_file (_ctx : HeifContext) (name : List UInt8)
    (fileErr : heif_error) : Outcome Unit :=
  match CString.new name with
  | none => Outcome.panic
  | some _ =>
    match HeifError.from_heif_error fileErr with
    | Except.error e => Outcome.err e
    | Except.ok () => Outcome.ok ()

/-- The `as _` cast of the native `c_int` return value to `usize`
(sign-extension to 64 bits then reinterpretation, i.e. two's complement
modulo 2^64). -/
def c_int_as_usize (i : Int) : Nat :=
  (i % (2 ^ 64)).toNat

/-- `heif_context_get_number_of_top_level_images`: the engine reports the
context's top-level image count as a C `int`. -/
def heif_context_get_number_of_top_level_images (ctx : HeifContext) : Int :=
  (ctx.nativeImages : Int)

/-- `HeifContext::number_of_top_level_images`: the native count cast to
`usize`; the return type is not a `Result` — there is no error path. -/
def HeifContext.number_of_top_level_images (ctx : HeifContext) : Nat :=
  c_int_as_usize (heif_context_get_number_of_top_level_images ctx)

/-! ## Derived handles: uninitialized output slots -/

/-- The behaviour of a native call that fills an output slot: its `heif_error`
result, and the value it stores into the slot (`none` when it leaves the
slot's uninitialized contents untouched, as it may on failure). -/
structure SlotCall where
  err : heif_error
  written : Option Nat
deriving Repr, DecidableEq

/-- Contents of the output slot after the native call: the written value if
any, otherwise the uninitialized bytes it started with (`uninit`). -/
def SlotCall.contents (call : SlotCall) (uninit : Nat) : Nat :=
  call.written.getD uninit

/-- Modelled from the spec: `ImageHandle::new` (`image.rs`, not under `src/`)
"wraps the handle together with a reference to this Context". -/
structure ImageHandle where
  contextHandle : Nat
  handle : Nat
deriving Repr, DecidableEq

/-- Modelled from the spec: `Encoder` (`encoder.rs`, not under `src/`) wraps
the native encoder record obtained from a context. -/
structure Encoder where
  inner : Nat
deriving Repr, DecidableEq

/-- Modelled from the spec: `Encoder::new` (`encoder.rs`, not under `src/`)
"on success wraps the returned encoder handle". -/
def Encoder.new (c_encoder : Nat) : Except HeifError Encoder :=
  Except.ok { inner := c_encoder }

/-- `HeifContext::primary_image_handle`: `handle` starts as
`mem::uninitialized()` (`uninit`); the native call may fill it (`native`);
the error translation runs before the slot is read, and only the success
branch wraps the slot's contents. -/
def HeifContext.primary_image_handle (ctx : HeifContext) (uninit : Nat)
    (native : SlotCall) : Except HeifError ImageHandle :=
  let handle := native.contents uninit
  match HeifError.from_heif_error native.err with
  | Except.error e => Except.error e
  | Except.ok () => Except.ok { contextHandle := ctx.inner, handle := handle }

/-- `HeifContext::encoder_for_format`: `c_encoder` starts as a boxed
`mem::uninitialized()` (`uninit`); the native call may fill it; error
translation runs before the box is read, and only the success branch passes
the contents to `Encoder::new`. -/
def HeifContext.encoder_for_format (_ctx : HeifContext) (_format : Nat)
    (uninit : Nat) (native : SlotCall) : Except HeifError Encoder :=
  let c_encoder := native.contents uninit
  match HeifError.from_heif_error native.err with
  | Except.error e => Except.error e
  | Except.ok () => Encoder.new c_encoder

/-! ## Encoding -/

/-- A raw C pointer: null or an address. -/
inductive CPtr where
  | null
  | addr (a : Nat)
deriving Repr, DecidableEq

/-- Modelled from the spec: `EncodingOptions` (`encoder.rs`, not under
`src/`) is "something convertible to a native configuration record";
`nativeAddr` is the address of the `heif_encoding_options` record that
`heif_encoding_options()` yields. -/
structure EncodingOptions where
  nativeAddr : Nat
deriving Repr, DecidableEq

/-- `HeifContext::encode_image`: the configuration pointer handed to
`heif_context_encode_image` is the address of the supplied options' native
representation, or null when no options are given; the native result
(`encodeErr`) is translated. Returns the pointer actually passed to the
native call alongside the wrapper's result. -/
def HeifContext.encode_image (_ctx : HeifContext) (_image : Nat) (_encoder : Nat)
    (encoding_options : Option EncodingOptions) (encodeErr : heif_error) :
    CPtr × Except HeifError Unit :=
  let encoding_options_ptr := match encoding_options with
    | some options => CPtr.addr options.nativeAddr
    | none => CPtr.null
  (encoding_options_ptr,
    match HeifError.from_heif_error encodeErr with
    | Except.error e => Except.error e
    | Except.ok () => Except.ok ())

/-! ## Trace accounting -/

/-- Number of `ctxAlloc h` events in a trace. -/
def ctxAllocCount (tr : List Event) (h : Nat) : Nat :=
  tr.count (Event.ctxAlloc h)

/-- Number of `ctxFree h` events in a trace. -/
def ctxFreeCount (tr : List Event) (h : Nat) : Nat :=
  tr.count (Event.ctxFree h)

/-- Number of `boxAlloc a` events in a trace. -/
def boxAllocCount (tr : List Event) (a : Nat) : Nat :=
  tr.count (Event.boxAlloc a)

/-- Number of `boxFree a` events in a trace. -/
def boxFreeCount (tr : List Event) (a : Nat) : Nat :=
  tr.count (Event.boxFree a)

/-- Every native context handle allocated in the trace is freed exactly as
many times as it was allocated: no leak and no double free. -/
def ctxBalanced (tr : List Event) : Prop :=
  ∀ h, ctxAllocCount tr h = ctxFreeCount tr h

/-- The full lifecycle trace of a constructor returning `Except`: on success
the context is eventually dropped (appending its drop events); on failure the
constructor's own trace already contains every drop. -/
def fullTraceE (r : Except HeifError HeifContext × List Event) : List Event :=
  match r with
  | (Except.ok ctx, tr) => tr ++ ctx.drop
  | (Except.error _, tr) => tr

/-- The full lifecycle trace of a constructor that can panic: on success the
context is eventually dropped; on failure or panic the constructor's trace
already contains the drops (unwinding drops live locals). -/
def fullTraceO (r : Outcome HeifContext × List Event) : List Event :=
  match r with
  | (Outcome.ok ctx, tr) => tr ++ ctx.drop
  | (Outcome.err _, tr) => tr
  | (Outcome.panic, tr) => tr

/-! ## Helper lemmas -/

/-- One writer invocation leaves the buffer equal to exactly the delivered
chunk — independently of the previous contents and of the uninitialized bytes
`set_len` exposes — and reports the native success error. -/
theorem vector_writer_eq (vec data junk : List UInt8) :
    vector_writer vec data junk = (data, { code := 0, subcode := 0, message := none }) := by
  unfold vector_writer copy_nonoverlapping set_len
  have hdrop : (((vec ++ junk).take data.length).drop data.length) = [] := by
    apply List.drop_eq_nil_of_le
    simp
  simp [hdrop]

theorem foldl_vector_writer_getLast (chunks : List (List UInt8)) (a : List UInt8)
    (hne : chunks ≠ []) :
    chunks.foldl (fun vec data => (vector_writer vec data (List.replicate data.length 0)).1) a =
      chunks.getLast hne := by
  induction chunks generalizing a with
  | nil => exact absurd rfl hne
  | cons x t ih =>
    cases t with
    | nil => simp [vector_writer_eq]
    | cons y t2 =>
      rw [List.foldl_cons, List.getLast_cons (by simp)]
      exact ih _ (by simp)

/-- Driving the writer over any nonempty chunk sequence leaves the buffer
holding exactly the last chunk. -/
theorem run_writer_eq_getLast (chunks : List (List UInt8)) (hne : chunks ≠ []) :
    run_writer chunks = chunks.getLast hne :=
  foldl_vector_writer_getLast chunks [] hne

/-- Parsing a serialized stream recovers the image count (the modelled codec
round-trip at the native boundary). -/
theorem heif_parse_serialize (n : Nat) : heif_parse (heif_serialize n) = Except.ok n := by
  have hall : (List.replicate n (0x01 : UInt8)).all (fun x => x = 0x01) = true := by
    simp [List.all_eq_true, List.mem_replicate]
  simp [heif_parse, heif_serialize, hall]

/-! ## Claims -/

/-- C1 (counterexample): the claim as stated is false. Deliver the chunks
`[0x01]` then `[0x02]` to the writer callback: the captured buffer is
`[0x02]`, not the concatenation `[0x01, 0x02]` — the second invocation
resizes the buffer to the new chunk's length and copies the chunk to the
buffer's start, overwriting the bytes already captured. -/
theorem C1_counterexample :
    run_writer [[0x01], [0x02]] = [0x02] ∧
    run_writer [[0x01], [0x02]] ≠ List.flatten [[0x01], [0x02]] := by
  exact ⟨rfl, by decide⟩

/-- C1 (amended): each invocation of the writer callback installed by
`write_to_bytes` resizes the buffer to exactly the delivered chunk's length,
copies the chunk's bytes in at the start of the buffer — overwriting, not
appending after, the bytes already captured — and reports success to the
native engine; consequently after any nonempty sequence of invocations the
buffer holds exactly the last chunk (for a single invocation, that chunk
itself, which coincides with the concatenation only in that case). -/
theorem C1_writer_overwrites (chunks : List (List UInt8)) (hne : chunks ≠ [])
    (vec data junk : List UInt8) :
    run_writer chunks = chunks.getLast hne ∧
    vector_writer vec data junk =
      (data, { code := 0, subcode := 0, message := none }) :=
  ⟨run_writer_eq_getLast chunks hne, vector_writer_eq vec data junk⟩

theorem C1_writer_overwrites_witness :
    run_writer [[0x03], [0x07, 0x09]] = [0x07, 0x09] ∧
    vector_writer [0x05] [0x07, 0x09] [0x00, 0x00] =
      ([0x07, 0x09], { code := 0, subcode := 0, message := none }) := by
  have h := C1_writer_overwrites [[0x03], [0x07, 0x09]] (by decide) [0x05] [0x07, 0x09] [0x00, 0x00]
  exact ⟨h.1.trans (by decide), h.2⟩

/-- C2 (counterexample): the claim as stated is false at a concrete input.
Take the context `{inner := 1, reader := none, nativeImages := 1}` and let the
native engine deliver its serialized stream `[0x66, 0x01]` in two writer
invocations `[0x66]` then `[0x01]` — a valid delivery, since the spec allows
"one or more" invocations. `write_to_bytes` then returns `Ok [0x01]` (the
last chunk only, because the callback overwrites), and `read_from_bytes` on
that buffer fails instead of yielding a context with an equal image count. -/
theorem C2_counterexample :
    ValidDelivery { inner := 1, reader := none, nativeImages := 1 } [[0x66], [0x01]] ∧
    HeifContext.write_to_bytes { inner := 1, reader := none, nativeImages := 1 }
        [[0x66], [0x01]] { code := 0, subcode := 0, message := none } =
      Except.ok [0x01] ∧
    (HeifContext.read_from_bytes (some 2) [0x01]).1 =
      Except.error
        { code := HeifErrorCode.fromNative 2
          sub_code := HeifErrorSubCode.fromNative 101
          message := "Invalid input" } := by
  refine ⟨⟨by decide, by decide⟩, rfl, rfl⟩

/-- C2 (amended): provided the native engine delivers the serialized
container stream in a single invocation of the writer callback and the native
write reports success, `write_to_bytes` followed by `read_from_bytes` on the
returned buffer succeeds and yields a context whose
`number_of_top_level_images` equals the original's. -/
theorem C2_roundtrip_single_chunk (ctx : HeifContext) (h2 : Nat) :
    ∃ buf ctx2,
      ValidDelivery ctx [heif_serialize ctx.nativeImages] ∧
      ctx.write_to_bytes [heif_serialize ctx.nativeImages]
          { code := 0, subcode := 0, message := none } = Except.ok buf ∧
      (HeifContext.read_from_bytes (some h2) buf).1 = Except.ok ctx2 ∧
      ctx2.number_of_top_level_images = ctx.number_of_top_level_images := by
  refine ⟨heif_serialize ctx.nativeImages,
    { inner := h2, reader := none, nativeImages := ctx.nativeImages }, ⟨by simp, by simp⟩, ?_, ?_, ?_⟩
  · unfold HeifContext.write_to_bytes run_writer
    simp [vector_writer_eq, HeifError.from_heif_error]
  · unfold HeifContext.read_from_bytes HeifContext.new
    simp [heif_parse_serialize]
  · simp [HeifContext.number_of_top_level_images, heif_context_get_number_of_top_level_images]

/-- C3: if the native registration call of `read_from_reader` reports an
error, the function returns the translated error and the boxed reader it
allocated is freed (its trace frees the box exactly as often as it allocated
it — no leak), and no context retaining it is returned; if registration
succeeds, the returned context owns the boxed reader at address `boxAddr`,
the very address that was registered with the native engine. -/
theorem C3_read_from_reader (h boxAddr : Nat) (regErr : heif_error) :
    (regErr.code ≠ 0 →
      (HeifContext.read_from_reader (some h) boxAddr regErr).1 =
        Except.error
          { code := HeifErrorCode.fromNative regErr.code
            sub_code := HeifErrorSubCode.fromNative regErr.subcode
            message := regErr.message.getD "" } ∧
      boxFreeCount (HeifContext.read_from_reader (some h) boxAddr regErr).2 boxAddr =
        boxAllocCount (HeifContext.read_from_reader (some h) boxAddr regErr).2 boxAddr) ∧
    (regErr.code = 0 →
      (HeifContext.read_from_reader (some h) boxAddr regErr).1 =
        Except.ok { inner := h, reader := some boxAddr, nativeImages := 0 } ∧
      Event.registerReader h boxAddr ∈
        (HeifContext.read_from_reader (some h) boxAddr regErr).2) := by
  by_cases hc : regErr.code = 0
  · refine ⟨fun hne => absurd hc hne, fun _ => ?_⟩
    simp [HeifContext.read_from_reader, HeifContext.new, HeifError.from_heif_error, hc]
  · refine ⟨fun _ => ?_, fun heq => absurd heq hc⟩
    simp [HeifContext.read_from_reader, HeifContext.new, HeifError.from_heif_error, hc,
      boxFreeCount, boxAllocCount, HeifContext.drop, List.count_append, List.count_cons]

theorem C3_read_from_reader_witness :
    (HeifContext.read_from_reader (some 5) 9 { code := 1, subcode := 3, message := some "err" }).1 =
      Except.error
        { code := HeifErrorCode.fromNative 1
          sub_code := HeifErrorSubCode.fromNative 3
          message := "err" } ∧
    boxFreeCount
        (HeifContext.read_from_reader (some 5) 9 { code := 1, subcode := 3, message := some "err" }).2 9 =
      boxAllocCount
        (HeifContext.read_from_reader (some 5) 9 { code := 1, subcode := 3, message := some "err" }).2 9 ∧
    (HeifContext.read_from_reader (some 5) 9 { code := 0, subcode := 0, message := none }).1 =
      Except.ok { inner := 5, reader := some 9, nativeImages := 0 } ∧
    Event.registerReader 5 9 ∈
      (HeifContext.read_from_reader (some 5) 9 { code := 0, subcode := 0, message := none }).2 := by
  have herr := (C3_read_from_reader 5 9 { code := 1, subcode := 3, message := some "err" }).1 (by decide)
  have hok := (C3_read_from_reader 5 9 { code := 0, subcode := 0, message := none }).2 rfl
  exact ⟨herr.1, herr.2, hok.1, hok.2⟩

/-- C4: `HeifContext::new` (`create_empty`) returns the
`ContextCreateFailed` / `Unspecified` / empty-message error exactly when the
native allocation returns a null handle; otherwise it returns a context whose
native handle is the allocated handle and whose reader storage is empty. -/
theorem C4_create_empty (allocResult : Option Nat) :
    (allocResult = none →
      HeifContext.new allocResult =
        (Except.error
          { code := HeifErrorCode.ContextCreateFailed
            sub_code := HeifErrorSubCode.Unspecified
            message := "" }, [])) ∧
    (∀ h, allocResult = some h →
      HeifContext.new allocResult =
        (Except.ok { inner := h, reader := none, nativeImages := 0 },
          [Event.ctxAlloc h])) := by
  constructor
  · rintro rfl
    rfl
  · rintro h rfl
    rfl

theorem C4_create_empty_witness :
    HeifContext.new none =
      (Except.error
        { code := HeifErrorCode.ContextCreateFailed
          sub_code := HeifErrorSubCode.Unspecified
          message := "" }, []) ∧
    HeifContext.new (some 4) =
      (Except.ok { inner := 4, reader := none, nativeImages := 0 },
        [Event.ctxAlloc 4]) :=
  ⟨(C4_create_empty none).1 rfl, (C4_create_empty (some 4)).2 4 rfl⟩

/-- C5: `read_from_bytes` on the empty byte buffer returns a structured
parse/read error value — never a successfully constructed context (and, the
embedding being a total function, no crash or panic). -/
theorem C5_read_from_bytes_empty (h : Nat) :
    (HeifContext.read_from_bytes (some h) []).1 =
      Except.error
        { code := HeifErrorCode.fromNative 2
          sub_code := HeifErrorSubCode.fromNative 100
          message := "Invalid input: empty buffer" } ∧
    ∀ ctx, (HeifContext.read_from_bytes (some h) []).1 ≠ Except.ok ctx := by
  refine ⟨rfl, fun ctx hcontra => ?_⟩
  simp [HeifContext.read_from_bytes, HeifContext.new, heif_parse,
    HeifError.from_heif_error] at hcontra

/-- C6: `encode_image` passes a null configuration pointer to the native
encode call exactly when no encoding options are supplied; when options are
supplied, the address of their native representation is passed through. -/
theorem C6_encode_options_ptr (ctx : HeifContext) (image encoder : Nat)
    (opts : Option EncodingOptions) (encodeErr : heif_error) :
    ((ctx.encode_image image encoder opts encodeErr).1 = CPtr.null ↔ opts = none) ∧
    ∀ o, opts = some o →
      (ctx.encode_image image encoder opts encodeErr).1 = CPtr.addr o.nativeAddr := by
  cases opts with
  | none =>
    refine ⟨by simp [HeifContext.encode_image], fun o ho => ?_⟩
    exact Option.noConfusion ho
  | some o0 =>
    refine ⟨by simp [HeifContext.encode_image], fun o ho => ?_⟩
    injection ho with ho2
    subst ho2
    rfl

theorem C6_encode_options_ptr_witness :
    ((HeifContext.encode_image { inner := 1, reader := none, nativeImages := 0 } 2 3
        none { code := 0, subcode := 0, message := none }).1 = CPtr.null ↔
      (none : Option EncodingOptions) = none) ∧
    (HeifContext.encode_image { inner := 1, reader := none, nativeImages := 0 } 2 3
        (some { nativeAddr := 7 }) { code := 0, subcode := 0, message := none }).1 =
      CPtr.addr 7 :=
  ⟨(C6_encode_options_ptr { inner := 1, reader := none, nativeImages := 0 } 2 3
      none { code := 0, subcode := 0, message := none }).1,
   (C6_encode_options_ptr { inner := 1, reader := none, nativeImages := 0 } 2 3
      (some { nativeAddr := 7 }) { code := 0, subcode := 0, message := none }).2
      { nativeAddr := 7 } rfl⟩

theorem heif_parse_error_code (bytes : List UInt8) (e : heif_error)
    (h : heif_parse bytes = Except.error e) : e.code = 2 := by
  rcases bytes with _ | ⟨b, rest⟩
  · simp only [heif_parse, Except.error.injEq] at h
    rw [← h]
  · simp only [heif_parse] at h
    split at h
    · exact Except.noConfusion h
    · injection h with h1
      rw [← h1]

theorem ctxBalanced_alloc_free (h : Nat) :
    ctxBalanced [Event.ctxAlloc h, Event.ctxFree h] := by
  intro a
  by_cases ha : a = h <;>
    simp [ctxAllocCount, ctxFreeCount, List.count_cons, List.count_nil, ha]

theorem ctxBalanced_reader_err (h b : Nat) :
    ctxBalanced [Event.ctxAlloc h, Event.boxAlloc b, Event.registerReader h b,
      Event.boxFree b, Event.ctxFree h] := by
  intro a
  by_cases ha : a = h <;>
    simp [ctxAllocCount, ctxFreeCount, List.count_cons, List.count_nil, ha]

theorem ctxBalanced_reader_ok (h b : Nat) :
    ctxBalanced [Event.ctxAlloc h, Event.boxAlloc b, Event.registerReader h b,
      Event.ctxFree h, Event.boxFree b] := by
  intro a
  by_cases ha : a = h <;>
    simp [ctxAllocCount, ctxFreeCount, List.count_cons, List.count_nil, ha]

/-- C7: along every construction path — empty, from bytes, from file
(including the panic path), from reader — followed by the eventual `Drop`,
every allocated native context handle is freed exactly as many times as it
was allocated (no leak, no double free), and `Drop` itself emits exactly one
`heif_context_free` of the owned handle, unconditionally. -/
theorem C7_destruction_exactly_once (allocResult : Option Nat) (bytes name : List UInt8)
    (boxAddr : Nat) (fileErr regErr : heif_error) :
    ctxBalanced (fullTraceE (HeifContext.new allocResult)) ∧
    ctxBalanced (fullTraceE (HeifContext.read_from_bytes allocResult bytes)) ∧
    ctxBalanced (fullTraceO (HeifContext.read_from_file allocResult name fileErr)) ∧
    ctxBalanced (fullTraceE (HeifContext.read_from_reader allocResult boxAddr regErr)) ∧
    ∀ ctx : HeifContext, ctxFreeCount ctx.drop ctx.inner = 1 := by
  have hdrop : ∀ ctx : HeifContext, ctxFreeCount ctx.drop ctx.inner = 1 := by
    intro ctx
    cases hr : ctx.reader <;>
      simp [ctxFreeCount, HeifContext.drop, hr, List.count_cons, List.count_nil]
  cases allocResult with
  | none =>
    exact ⟨fun a => rfl, fun a => rfl, fun a => rfl, fun a => rfl, hdrop⟩
  | some h =>
    refine ⟨ctxBalanced_alloc_free h, ?_, ?_, ?_, hdrop⟩
    · rcases hp : heif_parse bytes with e | n
      · have hcode : e.code = 2 := heif_parse_error_code bytes e hp
        have htr : fullTraceE (HeifContext.read_from_bytes (some h) bytes) =
            [Event.ctxAlloc h, Event.ctxFree h] := by
          simp [HeifContext.read_from_bytes, HeifContext.new, hp,
            HeifError.from_heif_error, hcode, fullTraceE, HeifContext.drop]
        rw [htr]
        exact ctxBalanced_alloc_free h
      · have htr : fullTraceE (HeifContext.read_from_bytes (some h) bytes) =
            [Event.ctxAlloc h, Event.ctxFree h] := by
          simp [HeifContext.read_from_bytes, HeifContext.new, hp, fullTraceE,
            HeifContext.drop]
        rw [htr]
        exact ctxBalanced_alloc_free h
    · have htr : fullTraceO (HeifContext.read_from_file (some h) name fileErr) =
          [Event.ctxAlloc h, Event.ctxFree h] := by
        by_cases h0 : (0 : UInt8) ∈ name <;> by_cases hf : fileErr.code = 0 <;>
          simp [HeifContext.read_from_file, HeifContext.new, CString.new, h0,
            HeifError.from_heif_error, hf, fullTraceO, HeifContext.drop]
      rw [htr]
      exact ctxBalanced_alloc_free h
    · by_cases hr : regErr.code = 0
      · have htr : fullTraceE (HeifContext.read_from_reader (some h) boxAddr regErr) =
            [Event.ctxAlloc h, Event.boxAlloc boxAddr, Event.registerReader h boxAddr,
              Event.ctxFree h, Event.boxFree boxAddr] := by
          simp [HeifContext.read_from_reader, HeifContext.new,
            HeifError.from_heif_error, hr, fullTraceE, HeifContext.drop]
        rw [htr]
        exact ctxBalanced_reader_ok h boxAddr
      · have htr : fullTraceE (HeifContext.read_from_reader (some h) boxAddr regErr) =
            [Event.ctxAlloc h, Event.boxAlloc boxAddr, Event.registerReader h boxAddr,
              Event.boxFree boxAddr, Event.ctxFree h] := by
          simp [HeifContext.read_from_reader, HeifContext.new,
            HeifError.from_heif_error, hr, fullTraceE, HeifContext.drop]
        rw [htr]
        exact ctxBalanced_reader_err h boxAddr

/-- C8: in `primary_image_handle` and `encoder_for_format` the uninitialized
output slot is read only after error translation confirms success: on a
native failure the result is exactly the translated error, identical for any
two possible leftover contents of the slot (the possibly-undefined contents
are never read or exposed); on success with the slot filled, the result wraps
precisely the value the native call wrote. -/
theorem C8_uninit_slot_unread_on_failure (ctx : HeifContext)
    (format uninit uninit2 : Nat) (native : SlotCall) :
    (native.err.code ≠ 0 →
      ctx.primary_image_handle uninit native =
        Except.error
          { code := HeifErrorCode.fromNative native.err.code
            sub_code := HeifErrorSubCode.fromNative native.err.subcode
            message := native.err.message.getD "" } ∧
      ctx.primary_image_handle uninit native = ctx.primary_image_handle uninit2 native ∧
      ctx.encoder_for_format format uninit native =
        ctx.encoder_for_format format uninit2 native) ∧
    (∀ v, native.err.code = 0 → native.written = some v →
      ctx.primary_image_handle uninit native =
        Except.ok { contextHandle := ctx.inner, handle := v } ∧
      ctx.encoder_for_format format uninit native = Except.ok { inner := v }) := by
  by_cases hc : native.err.code = 0
  · refine ⟨fun hne => absurd hc hne, fun v _ hw => ?_⟩
    simp [HeifContext.primary_image_handle, HeifContext.encoder_for_format,
      HeifError.from_heif_error, hc, SlotCall.contents, hw, Encoder.new]
  · refine ⟨fun _ => ?_, fun v h0 => absurd h0 hc⟩
    simp [HeifContext.primary_image_handle, HeifContext.encoder_for_format,
      HeifError.from_heif_error, hc]

theorem C8_uninit_slot_unread_on_failure_witness :
    HeifContext.primary_image_handle { inner := 1, reader := none, nativeImages := 0 } 99
        { err := { code := 4, subcode := 0, message := none }, written := none } =
      Except.error
        { code := HeifErrorCode.fromNative 4
          sub_code := HeifErrorSubCode.fromNative 0
          message := "" } ∧
    HeifContext.primary_image_handle { inner := 1, reader := none, nativeImages := 0 } 99
        { err := { code := 4, subcode := 0, message := none }, written := none } =
      HeifContext.primary_image_handle { inner := 1, reader := none, nativeImages := 0 } 55
        { err := { code := 4, subcode := 0, message := none }, written := none } ∧
    HeifContext.encoder_for_format { inner := 1, reader := none, nativeImages := 0 } 2 99
        { err := { code := 4, subcode := 0, message := none }, written := none } =
      HeifContext.encoder_for_format { inner := 1, reader := none, nativeImages := 0 } 2 55
        { err := { code := 4, subcode := 0, message := none }, written := none } ∧
    HeifContext.primary_image_handle { inner := 1, reader := none, nativeImages := 0 } 99
        { err := { code := 0, subcode := 0, message := none }, written := some 8 } =
      Except.ok { contextHandle := 1, handle := 8 } ∧
    HeifContext.encoder_for_format { inner := 1, reader := none, nativeImages := 0 } 2 99
        { err := { code := 0, subcode := 0, message := none }, written := some 8 } =
      Except.ok { inner := 8 } := by
  have herr := (C8_uninit_slot_unread_on_failure
    { inner := 1, reader := none, nativeImages := 0 } 2 99 55
    { err := { code := 4, subcode := 0, message := none }, written := none }).1 (by decide)
  have hok := (C8_uninit_slot_unread_on_failure
    { inner := 1, reader := none, nativeImages := 0 } 2 99 55
    { err := { code := 0, subcode := 0, message := none }, written := some 8 }).2 8 rfl rfl
  exact ⟨herr.1, herr.2.1, herr.2.2, hok.1, hok.2⟩

/-- C9: `number_of_top_level_images` is total — its return type is a plain
count, not a `Result`, so there is no error path in the embedding — and,
whenever the engine's count fits the native `c_int` it is returned through
the cast unchanged, as a non-negative integer. -/
theorem C9_number_total (ctx : HeifContext) (hfit : ctx.nativeImages < 2 ^ 31) :
    ctx.number_of_top_level_images = ctx.nativeImages ∧
    0 ≤ heif_context_get_number_of_top_level_images ctx := by
  constructor
  · unfold HeifContext.number_of_top_level_images c_int_as_usize
      heif_context_get_number_of_top_level_images
    omega
  · exact Int.ofNat_nonneg _

theorem C9_number_total_witness :
    HeifContext.number_of_top_level_images { inner := 1, reader := none, nativeImages := 3 } = 3 ∧
    0 ≤ heif_context_get_number_of_top_level_images
      { inner := 1, reader := none, nativeImages := 3 } :=
  C9_number_total { inner := 1, reader := none, nativeImages := 3 } (by decide)

/-- C10: `read_from_file` and `write_to_file` panic (the `unwrap()` on the
C-string conversion) exactly when the supplied path contains an interior NUL
byte, instead of returning a structured error; for every NUL-free path they
proceed to the native call and return its translated result. -/
theorem C10_nul_unwrap (h : Nat) (ctx : HeifContext) (name : List UInt8)
    (fileErr : heif_error) :
    (name.contains 0 = true →
      (HeifContext.read_from_file (some h) name fileErr).1 = Outcome.panic ∧
      ctx.write_to_file name fileErr = Outcome.panic) ∧
    (name.contains 0 = false →
      (fileErr.code = 0 →
        (HeifContext.read_from_file (some h) name fileErr).1 =
          Outcome.ok { inner := h, reader := none, nativeImages := 0 } ∧
        ctx.write_to_file name fileErr = Outcome.ok ()) ∧
      (fileErr.code ≠ 0 →
        (HeifContext.read_from_file (some h) name fileErr).1 =
          Outcome.err
            { code := HeifErrorCode.fromNative fileErr.code
              sub_code := HeifErrorSubCode.fromNative fileErr.subcode
              message := fileErr.message.getD "" } ∧
        ctx.write_to_file name fileErr =
          Outcome.err
            { code := HeifErrorCode.fromNative fileErr.code
              sub_code := HeifErrorSubCode.fromNative fileErr.subcode
              message := fileErr.message.getD "" })) := by
  constructor
  · intro h0
    simp at h0
    constructor <;>
      simp [HeifContext.read_from_file, HeifContext.write_to_file, HeifContext.new,
        CString.new, h0]
  · intro h0
    simp at h0
    constructor
    · intro hf
      constructor <;>
        simp [HeifContext.read_from_file, HeifContext.write_to_file, HeifContext.new,
          CString.new, h0, HeifError.from_heif_error, hf]
    · intro hf
      constructor <;>
        simp [HeifContext.read_from_file, HeifContext.write_to_file, HeifContext.new,
          CString.new, h0, HeifError.from_heif_error, hf]

theorem C10_nul_unwrap_witness :
    (HeifContext.read_from_file (some 3) [0x61, 0x00]
        { code := 0, subcode := 0, message := none }).1 = Outcome.panic ∧
    HeifContext.write_to_file { inner := 3, reader := none, nativeImages := 0 } [0x61, 0x00]
        { code := 0, subcode := 0, message := none } = Outcome.panic ∧
    (HeifContext.read_from_file (some 3) [0x61]
        { code := 0, subcode := 0, message := none }).1 =
      Outcome.ok { inner := 3, reader := none, nativeImages := 0 } ∧
    HeifContext.write_to_file { inner := 3, reader := none, nativeImages := 0 } [0x61]
        { code := 5, subcode := 6, message := some "io" } =
      Outcome.err
        { code := HeifErrorCode.fromNative 5
          sub_code := HeifErrorSubCode.fromNative 6
          message := "io" } := by
  have hp := (C10_nul_unwrap 3 { inner := 3, reader := none, nativeImages := 0 } [0x61, 0x00]
    { code := 0, subcode := 0, message := none }).1 (by decide)
  have hok := ((C10_nul_unwrap 3 { inner := 3, reader := none, nativeImages := 0 } [0x61]
    { code := 0, subcode := 0, message := none }).2 (by decide)).1 rfl
  have herr := ((C10_nul_unwrap 3 { inner := 3, reader := none, nativeImages := 0 } [0x61]
    { code := 5, subcode := 6, message := some "io" }).2 (by decide)).2 (by decide)
  exact ⟨hp.1, hp.2, hok.1, herr.2⟩
